import Mathlib

/-!
Verification of the people-counter server against its specification.

The development shallowly embeds the two source files:
* `src/main.cpp` — the protocol handler `connectionHandler` (request
  classification, decryption/checksum verification, device-name/stats/event
  parsing, log-message emission);
* the stream header (`src/unnamed/part_000`) — `StreamServerWrapper::accept`
  and the `ReaderStreamBuf`/`WriterStreamBuf` adapters.

Strings are modelled as `List Char`; the arbitrary-precision integers of the
external `bigmath.h` library are modelled as `Nat`, with the library's opaque
operations (base-64 parsing, canonical byte conversion) taken as parameters.
-/

namespace PeopleCounter

/-- `const WordType checkSumModulus = 8191;` (main.cpp line 15). -/
def checkSumModulus : Nat := 8191

/-- `const size_t randomBitCount = 64;` (main.cpp line 14). -/
def randomBitCount : Nat := 64

/-- `bool useInfoMessages = false;` (main.cpp line 16); never assigned
anywhere else in the sources, so it stays `false` for the whole process. -/
def useInfoMessages : Bool := false

/-- The globals `decryptionModulus` / `decryptionExponent` (main.cpp lines
12-13), set once at startup and read-only afterwards. -/
structure Config where
  decryptionModulus : Nat
  decryptionExponent : Nat

/-- Modelled from the spec: the interface of the external arbitrary-precision
integer library (`bigmath.h`, an out-of-scope collaborator whose code is not
under `src/`). `parseBase64` decodes a base-64 block to an integer and may
fail with an exception message; `toByteString` is the canonical byte-string
conversion of an integer. Both are opaque to every claim, so the handler is
parametrised over them. -/
structure BigOps where
  parseBase64 : List Char → Except (List Char) Nat
  toByteString : Nat → List Char

/-- Modelled from the spec: `powMod` of the external big-integer library is
modular exponentiation, `v ^ e` reduced by the modulus `n`. -/
def powMod (v e n : Nat) : Nat := v ^ e % n

/-- `s.find_first_of(c)` together with the two `substr` calls around it:
`some (before, after)` splits at the first occurrence of `c`, `none` means
`string::npos` (no occurrence). -/
def breakOn (c : Char) : List Char → Option (List Char × List Char)
  | [] => none
  | a :: rest =>
    if a = c then some ([], rest)
    else
      match breakOn c rest with
      | none => none
      | some (p, q) => some (a :: p, q)

/-- The checksum comparison of main.cpp line 60: after
`BigUnsigned::divMod(v, checkSumModulus, v, checkSum)` the remainder
`checkSum = v₁ % 8191` is compared against `v % checkSumModulus` where `v`
has already been reassigned to the quotient, i.e. against
`(v₁ / 8191) % 8191`. -/
def checksumOk (v1 : Nat) : Bool :=
  v1 % checkSumModulus == (v1 / checkSumModulus) % checkSumModulus

/-- One iteration of the decryption loop body (main.cpp lines 53-63): decode
the block, apply modular exponentiation, split by the checksum modulus,
verify, discard `randomBitCount` low bits, convert to bytes. A mismatch is
`throw runtime_error("checksum doesn't match")`. -/
def decryptBlock (ops : BigOps) (cfg : Config) (block : List Char) :
    Except (List Char) (List Char) :=
  match ops.parseBase64 block with
  | .error e => .error e
  | .ok v0 =>
    let v1 := powMod v0 cfg.decryptionExponent cfg.decryptionModulus
    if checksumOk v1 then
      .ok (ops.toByteString ((v1 / checkSumModulus) >>> randomBitCount))
    else .error "checksum doesn't match".toList

/-- The decryption loop of main.cpp lines 49-65, scanning character by
character: `cur` is the text of the current block accumulated so far; a
newline completes a block, which is decrypted and verified, and a trailing
block with no terminating newline is dropped (the loop exits when
`find_first_of` fails). The first failing block aborts the whole loop with
its exception message. -/
def decryptBlocksAux (ops : BigOps) (cfg : Config) :
    List Char → List Char → Except (List Char) (List Char)
  | _, [] => .ok []
  | cur, a :: rest =>
    if a = '\n' then
      match decryptBlock ops cfg cur with
      | .error e => .error e
      | .ok chunk =>
        match decryptBlocksAux ops cfg [] rest with
        | .error e => .error e
        | .ok tail => .ok (chunk ++ tail)
    else decryptBlocksAux ops cfg (cur ++ [a]) rest

/-- The whole `'1'` (encrypted) branch body of main.cpp lines 46-73:
the accumulated plaintext, or the exception message of the first failure. -/
def decryptBlocks (ops : BigOps) (cfg : Config) (s : List Char) :
    Except (List Char) (List Char) :=
  decryptBlocksAux ops cfg [] s

/-- The event-splitting loop of main.cpp lines 103-113, scanning character by
character with `cur` the current line so far: each newline completes a line,
and a non-empty final segment with no newline is pushed whole (`msg != ""`
with `find_first_of` failing). -/
def splitEventsAux : List Char → List Char → List (List Char)
  | cur, [] => if cur = [] then [] else [cur]
  | cur, a :: rest =>
    if a = '\n' then cur :: splitEventsAux [] rest
    else splitEventsAux (cur ++ [a]) rest

/-- `while(msg != "") { ... }` of main.cpp lines 103-113. -/
def splitEvents (s : List Char) : List (List Char) :=
  splitEventsAux [] s

/-- `isspace` characters of the "C" locale, skipped by `istringstream`
extraction before reading a number. -/
def isCppSpace (c : Char) : Bool :=
  c == ' ' || c == '\t' || c == '\n' || c == Char.ofNat 11 ||
    c == Char.ofNat 12 || c == '\r'

/-- The value of a hexadecimal digit character, `none` for a non-digit. -/
def hexDigitVal (c : Char) : Option Nat :=
  if '0' ≤ c ∧ c ≤ '9' then some (c.toNat - '0'.toNat)
  else if 'a' ≤ c ∧ c ≤ 'f' then some (c.toNat - 'a'.toNat + 10)
  else if 'A' ≤ c ∧ c ≤ 'F' then some (c.toNat - 'A'.toNat + 10)
  else none

/-- The characters `num_get` accumulates into the field when the base is
hexadecimal: hex digits, the `0x` markers and a sign. -/
def isHexFieldChar (c : Char) : Bool :=
  (hexDigitVal c).isSome || c == 'x' || c == 'X' || c == '+' || c == '-'

/-- Horner evaluation of a run of hexadecimal digits. -/
def hexVal (ds : List Char) : Nat :=
  ds.foldl (fun a c => 16 * a + (hexDigitVal c).getD 0) 0

/-- An optional leading sign: `(negative, rest)`. -/
def stripSign : List Char → Bool × List Char
  | [] => (false, [])
  | c :: r =>
    if c = '-' then (true, r)
    else if c = '+' then (false, r)
    else (false, c :: r)

/-- An optional leading `0x` / `0X` marker. -/
def stripHexMarker (l : List Char) : List Char :=
  match l with
  | a :: b :: r => if a = '0' ∧ (b = 'x' ∨ b = 'X') then r else l
  | _ => l

/-- Modelled from the spec / the C++ standard library (external collaborator):
`strtoll` with base 16 applied to the accumulated field, demanding that the
whole field is consumed — optional sign, optional `0x`/`0X`, then at least
one hex digit and nothing else. `some (negative, magnitude)` on success. -/
def strtollHex (field : List Char) : Option (Bool × Nat) :=
  let signSplit := stripSign field
  let digits := stripHexMarker signSplit.2
  if digits.isEmpty then none
  else if digits.all (fun c => (hexDigitVal c).isSome) then
    some (signSplit.1, hexVal digits)
  else none

/-- `LLONG_MAX`, the largest `time_t` on the 64-bit target. -/
def longMax : Int := 2 ^ 63 - 1

/-- `LLONG_MIN`. -/
def longMin : Int := -(2 ^ 63)

/-- Modelled from the spec / C++11 `istringstream >> std::hex >> t` on a
`time_t` (main.cpp line 122, external standard-library behaviour): leading
whitespace is skipped, the maximal run of hex-field characters is collected,
and the collected field is converted by `strtoll` base 16. A field that does
not convert entirely leaves `t = 0` (the C++11 failed-extraction value); an
out-of-range value is clamped to the most positive / most negative
representable value. -/
def readHexTimeT (s : List Char) : Int :=
  let field := (s.dropWhile isCppSpace).takeWhile isHexFieldChar
  match strtollHex field with
  | none => 0
  | some (neg, n) =>
    if neg then (if (n : Int) > 2 ^ 63 then longMin else -(n : Int))
    else (if (n : Int) > longMax then longMax else (n : Int))

/-- The per-event timestamp pass of main.cpp lines 114-126: `t` starts as
`time(NULL)` (`now`); when the line has a space, the prefix before the first
space is extracted as a hex `time_t` (overwriting `now` even on extraction
failure) and the description is the suffix; otherwise the whole line is the
description and the timestamp stays `now`. -/
def parseEvent (now : Int) (str : List Char) : Int × List Char :=
  match breakOn ' ' str with
  | none => (now, str)
  | some (pre, post) => (readHexTimeT pre, post)

/-- Device-name, stats and event extraction of main.cpp lines 81-126, on the
plain or decrypted body: `none` when the body has no newline (no device
name); otherwise the device name, the captured stats string (empty, with the
remainder left unconsumed, when no further newline exists) and the ordered
timestamped events. -/
def parseFrame (now : Int) (body : List Char) :
    Option (List Char × List Char × List (Int × List Char)) :=
  match breakOn '\n' body with
  | none => none
  | some (deviceName, rest1) =>
    let statsAndRest : List Char × List Char :=
      match breakOn '\n' rest1 with
      | none => ([], rest1)
      | some (st, r) => (st, r)
    some (deviceName, statsAndRest.1,
      (splitEvents statsAndRest.2).map (parseEvent now))

/-- One Event log line of main.cpp line 131:
`"Event : " + deviceName + " : " + str + " : " + description + "\n"`,
with `str` the `strftime`-formatted timestamp. -/
def eventMessage (fmtTime : Int → List Char) (deviceName : List Char)
    (ev : Int × List Char) : List Char :=
  "Event : ".toList ++ deviceName ++ " : ".toList ++ fmtTime ev.1 ++
    " : ".toList ++ ev.2 ++ ['\n']

/-- The observable outcome of one `connectionHandler` call: the bytes written
to the response stream, whether `os.close()` was called (the half-close), and
the list of strings appended to `messages` (each one appended line, trailing
newline included). -/
structure HandlerResult where
  response : List Char
  osClosed : Bool
  messages : List (List Char)
deriving DecidableEq

/-- A rejection: one `"Error : ..."` message, response byte `'0'`, no
half-close. -/
def rejectResult (messageText : List Char) : HandlerResult :=
  { response := ['0'], osClosed := false, messages := [messageText] }

/-- Main.cpp lines 81-132, after tag handling: extract the device name
(rejecting when no newline exists), acknowledge with `'1'` and half-close,
then emit one Event line per parsed event (preceded by an Info line when
`useInfoMessages` is set, which it never is). -/
def finishRequest (now : Int) (fmtTime : Int → List Char)
    (body : List Char) : HandlerResult :=
  match parseFrame now body with
  | none => rejectResult "Error : can't find device name\n".toList
  | some (deviceName, _statsString, events) =>
    { response := ['1'], osClosed := true,
      messages :=
        (if useInfoMessages then
          ["Info : ".toList ++ deviceName ++ " : syncing\n".toList]
        else []) ++ events.map (eventMessage fmtTime deviceName) }

/-- `connectionHandler` (main.cpp lines 18-133) as a function of the request
body `msg` (the bytes read until end of input), the configuration, the
current wall-clock time `now` (`time(NULL)`) and the external time formatter
`fmtTime` (`strftime "%c"` of `localtime`). -/
def connectionHandler (ops : BigOps) (cfg : Config) (now : Int)
    (fmtTime : Int → List Char) (msg : List Char) : HandlerResult :=
  match msg with
  | [] => rejectResult "Error : Invalid request\n".toList
  | tag :: body =>
    if tag = '0' then
      if cfg.decryptionModulus ≠ 0 then
        rejectResult "Error : unencrypted message attempted\n".toList
      else finishRequest now fmtTime body
    else if tag = '1' then
      match decryptBlocks ops cfg body with
      | .error e => rejectResult ("Error : ".toList ++ e ++ ['\n'])
      | .ok unencrypted => finishRequest now fmtTime unencrypted
    else rejectResult "Error : Invalid encryption type\n".toList

/-! ### The stream layer (`src/unnamed/part_000`) -/

/-- The exceptions of the stream header that the claims distinguish:
`NoStreamsLeftException` thrown by `StreamServerWrapper::accept`. -/
inductive StreamError where
  | noStreamsLeft
deriving DecidableEq

/-- `StreamServerWrapper` (part_000 lines 345-367): a preregistered FIFO
queue of streams and an optional fallback server. The fallback server's
state has abstract type `β`; its `accept` behaviour is passed separately. -/
structure StreamServerWrapper (α β : Type) where
  streams : List α
  nextServer : Option β

namespace StreamServerWrapper

/-- `StreamServerWrapper::accept` (part_000 lines 355-366): an empty queue
delegates to the fallback server when one is configured and throws
`NoStreamsLeftException` otherwise; a non-empty queue pops and returns its
front. `acceptNext` is the fallback server's own `accept`, threading its
state. -/
def accept {α β : Type}
    (acceptNext : β → Except StreamError (α × β)) :
    StreamServerWrapper α β → Except StreamError (α × StreamServerWrapper α β)
  | w =>
    match w.streams with
    | [] =>
      match w.nextServer with
      | none => .error .noStreamsLeft
      | some b =>
        (acceptNext b).map (fun p => (p.1, ⟨[], some p.2⟩))
    | s :: rest => .ok (s, ⟨rest, w.nextServer⟩)

/-- `n` successive `accept` calls: the list of their outcomes and the final
server state (a throwing call leaves the state as it was). -/
def acceptRun {α β : Type} (acceptNext : β → Except StreamError (α × β)) :
    Nat → StreamServerWrapper α β →
      List (Except StreamError α) × StreamServerWrapper α β
  | 0, w => ([], w)
  | n + 1, w =>
    match accept acceptNext w with
    | .ok (a, w') =>
      let r := acceptRun acceptNext n w'
      (.ok a :: r.1, r.2)
    | .error e =>
      let r := acceptRun acceptNext n w
      (.error e :: r.1, r.2)

end StreamServerWrapper

/-- The outcome of one `Reader::readByte` call of the wrapped byte reader:
a byte, `EOFException` (end of stream) or another `IOException` (transport
failure), threading the reader's state. -/
inductive ReadOutcome where
  | ok (b : Nat)
  | endOfStream
  | ioFailure (msg : List Char)
deriving DecidableEq

/-- The outcome of one `Writer::writeByte` call. -/
inductive WriteOutcome where
  | ok
  | ioFailure (msg : List Char)
deriving DecidableEq

/-- `ReaderStreamBuf` (part_000 lines 369-413): holds the wrapped reader, or
`none` once detached by `close`. -/
structure ReaderStreamBuf (ρ : Type) where
  reader : Option ρ

/-- `WriterStreamBuf` (part_000 lines 415-463). -/
structure WriterStreamBuf (ω : Type) where
  writer : Option ω

namespace ReaderStreamBuf

/-- `ReaderStreamBuf::close` (part_000 lines 378-381): `reader = nullptr` —
the handle is dropped, no operation is invoked on the underlying reader. -/
def close {ρ : Type} (_sb : ReaderStreamBuf ρ) : ReaderStreamBuf ρ :=
  { reader := none }

/-- `ReaderStreamBuf::getByteInternal` (part_000 lines 383-400): a detached
buffer yields `EOF` (-1); otherwise one byte is read, and both
`EOFException` and every other `IOException` are caught and turned into
`EOF`. `readByte` is the wrapped reader's behaviour, threading its state. -/
def getByteInternal {ρ : Type} (readByte : ρ → ReadOutcome × ρ) :
    ReaderStreamBuf ρ → Int × ReaderStreamBuf ρ
  | ⟨none⟩ => (-1, ⟨none⟩)
  | ⟨some r⟩ =>
    match readByte r with
    | (.ok b, r') => ((b : Int), ⟨some r'⟩)
    | (.endOfStream, r') => (-1, ⟨some r'⟩)
    | (.ioFailure _, r') => (-1, ⟨some r'⟩)

end ReaderStreamBuf

namespace WriterStreamBuf

/-- `WriterStreamBuf::close` (part_000 lines 423-426): `writer = nullptr`. -/
def close {ω : Type} (_sb : WriterStreamBuf ω) : WriterStreamBuf ω :=
  { writer := none }

/-- `WriterStreamBuf::putByteInternal` (part_000 lines 428-441): a detached
buffer yields -1; otherwise the byte is written, `IOException` is caught and
turned into -1, success returns 0. -/
def putByteInternal {ω : Type} (writeByte : ω → Nat → WriteOutcome × ω)
    (sb : WriterStreamBuf ω) (byte : Nat) : Int × WriterStreamBuf ω :=
  match sb with
  | ⟨none⟩ => (-1, ⟨none⟩)
  | ⟨some w⟩ =>
    match writeByte w byte with
    | (.ok, w') => (0, ⟨some w'⟩)
    | (.ioFailure _, w') => (-1, ⟨some w'⟩)

end WriterStreamBuf

/-! ### Helper lemmas -/

theorem breakOn_of_not_mem {c : Char} {s : List Char} (h : c ∉ s) :
    breakOn c s = none := by
  induction s with
  | nil => rfl
  | cons a rest ih =>
    simp only [List.mem_cons, not_or] at h
    simp [breakOn, Ne.symm h.1, ih h.2]

theorem breakOn_append {c : Char} {a b : List Char} (h : c ∉ a) :
    breakOn c (a ++ c :: b) = some (a, b) := by
  induction a with
  | nil => simp [breakOn]
  | cons x xs ih =>
    simp only [List.mem_cons, not_or] at h
    simp [breakOn, Ne.symm h.1, ih h.2]

theorem splitEventsAux_append : ∀ (e cur rest : List Char), '\n' ∉ e →
    splitEventsAux cur (e ++ '\n' :: rest) = (cur ++ e) :: splitEventsAux [] rest
  | [], cur, rest, _ => by simp [splitEventsAux]
  | x :: xs, cur, rest, h => by
    simp only [List.mem_cons, not_or] at h
    have ih := splitEventsAux_append xs (cur ++ [x]) rest h.2
    simp [splitEventsAux, Ne.symm h.1, ih, List.append_assoc]

theorem splitEventsAux_no_newline : ∀ (e cur : List Char), '\n' ∉ e →
    splitEventsAux cur e = if cur ++ e = [] then [] else [cur ++ e]
  | [], cur, _ => by simp [splitEventsAux]
  | x :: xs, cur, h => by
    simp only [List.mem_cons, not_or] at h
    have ih := splitEventsAux_no_newline xs (cur ++ [x]) h.2
    simp [splitEventsAux, Ne.symm h.1, ih, List.append_assoc]

/-- The wire image of a list of newline-terminated lines:
`l₁ ++ "\n" ++ l₂ ++ "\n" ++ ...`. -/
def catLines (es : List (List Char)) : List Char :=
  es.foldr (fun a b => a ++ '\n' :: b) []

theorem splitEvents_catLines : ∀ (es : List (List Char)), (∀ e ∈ es, '\n' ∉ e) →
    splitEvents (catLines es) = es
  | [], _ => rfl
  | e :: es, h => by
    have h1 : '\n' ∉ e := h e (List.mem_cons_self e es)
    have ih := splitEvents_catLines es (fun x hx => h x (List.mem_cons_of_mem e hx))
    show splitEventsAux [] (e ++ '\n' :: catLines es) = e :: es
    rw [splitEventsAux_append e [] (catLines es) h1]
    simpa [splitEvents] using ih

theorem decryptBlocksAux_append (ops : BigOps) (cfg : Config) :
    ∀ (b cur rest : List Char), '\n' ∉ b →
    decryptBlocksAux ops cfg cur (b ++ '\n' :: rest) =
      match decryptBlock ops cfg (cur ++ b) with
      | .error e => .error e
      | .ok chunk =>
        match decryptBlocksAux ops cfg [] rest with
        | .error e => .error e
        | .ok tail => .ok (chunk ++ tail)
  | [], cur, rest, _ => by simp [decryptBlocksAux]
  | x :: xs, cur, rest, h => by
    simp only [List.mem_cons, not_or] at h
    have ih := decryptBlocksAux_append ops cfg xs (cur ++ [x]) rest h.2
    simp [decryptBlocksAux, Ne.symm h.1, ih, List.append_assoc]

theorem decryptBlocks_catLines_error (ops : BigOps) (cfg : Config) :
    ∀ (bs : List (List Char)), (∀ b ∈ bs, '\n' ∉ b) →
    (∀ b ∈ bs, ∃ v, ops.parseBase64 b = .ok v) →
    (∃ b ∈ bs, ∃ v, ops.parseBase64 b = .ok v ∧
      checksumOk (powMod v cfg.decryptionExponent cfg.decryptionModulus) = false) →
    decryptBlocks ops cfg (catLines bs) = .error "checksum doesn't match".toList
  | [], _, _, hbad => absurd hbad (by simp)
  | b :: bs, hnl, hparse, hbad => by
    have h1 : '\n' ∉ b := hnl b (List.mem_cons_self b bs)
    obtain ⟨v, hv⟩ := hparse b (List.mem_cons_self b bs)
    show decryptBlocksAux ops cfg [] (b ++ '\n' :: catLines bs) = _
    rw [decryptBlocksAux_append ops cfg b [] (catLines bs) h1]
    simp only [List.nil_append]
    unfold decryptBlock
    rw [hv]
    by_cases hc :
        checksumOk (powMod v cfg.decryptionExponent cfg.decryptionModulus) = true
    · have hbad' : ∃ b' ∈ bs, ∃ v', ops.parseBase64 b' = .ok v' ∧
          checksumOk (powMod v' cfg.decryptionExponent cfg.decryptionModulus)
            = false := by
        rcases hbad with ⟨b', hb', v', hv', hcv'⟩
        rcases List.mem_cons.mp hb' with hbb | hmem
        · subst hbb
          rw [hv] at hv'
          injection hv' with hvv
          subst hvv
          rw [hc] at hcv'
          exact absurd hcv' (by simp)
        · exact ⟨b', hmem, v', hv', hcv'⟩
      have ih := decryptBlocks_catLines_error ops cfg bs
        (fun x hx => hnl x (List.mem_cons_of_mem b hx))
        (fun x hx => hparse x (List.mem_cons_of_mem b hx)) hbad'
      simp only [decryptBlocks] at ih
      simp [hc, ih]
    · simp only [Bool.not_eq_true] at hc
      simp [hc]

theorem errTag_ne_event (r t : List Char) :
    "Error : ".toList ++ r ≠ "Event : ".toList ++ t := by
  intro h
  have h8 : "Error : ".toList = ['E', 'r', 'r', 'o', 'r', ' ', ':', ' '] := rfl
  have h9 : "Event : ".toList = ['E', 'v', 'e', 'n', 't', ' ', ':', ' '] := rfl
  rw [h8, h9] at h
  simp at h

theorem hexDigit_not_space {c : Char} (h : (hexDigitVal c).isSome) :
    isCppSpace c = false := by
  by_contra hc
  simp only [Bool.not_eq_false, isCppSpace, Bool.or_eq_true, beq_iff_eq] at hc
  rcases hc with ((((h1 | h1) | h1) | h1) | h1) | h1 <;> subst h1 <;>
    exact absurd h (by decide)

/-! ### Claim theorems -/

/-- C1: for every encrypted request whose newline-terminated blocks all
decode, every block's decrypted value is split by the checksum modulus 8191
and its remainder is compared with the expected checksum value (the
reassigned quotient reduced by the modulus, as main.cpp line 60 literally
does); if any block fails this comparison the entire request is rejected —
the response is the single byte `'0'`, no half-close, and the one message
`"Error : checksum doesn't match"`, so no block's plaintext is accepted. -/
theorem checksumMismatchAbortsRequest (ops : BigOps) (cfg : Config) (now : Int)
    (fmtTime : Int → List Char) (bs : List (List Char))
    (hnl : ∀ b ∈ bs, '\n' ∉ b)
    (hparse : ∀ b ∈ bs, ∃ v, ops.parseBase64 b = .ok v)
    (hbad : ∃ b ∈ bs, ∃ v, ops.parseBase64 b = .ok v ∧
      checksumOk (powMod v cfg.decryptionExponent cfg.decryptionModulus) = false) :
    connectionHandler ops cfg now fmtTime ('1' :: catLines bs) =
      rejectResult "Error : checksum doesn't match\n".toList := by
  have hd := decryptBlocks_catLines_error ops cfg bs hnl hparse hbad
  simp [connectionHandler, hd, rejectResult]

/-- Witness for C1: a one-block request whose decrypted value 1 has
remainder 1 but quotient remainder 0. -/
theorem checksumMismatchAbortsRequest_witness :
    connectionHandler ⟨fun _ => .ok 1, fun _ => []⟩ ⟨5, 3⟩ 7 (fun _ => [])
        ('1' :: catLines ["AAAA".toList]) =
      rejectResult "Error : checksum doesn't match\n".toList :=
  checksumMismatchAbortsRequest _ _ _ _ _ (by decide)
    (fun _ _ => ⟨1, rfl⟩) ⟨"AAAA".toList, by decide, 1, rfl, by decide⟩

/-- C2: a well-formed unencrypted request (tag `'0'` with no key configured,
a newline-terminated device name, a stats line, and newline-terminated event
lines in order) is answered with the response byte `'1'` followed by the
half-close, and the message batch is exactly one
`"Event : <deviceName> : <formatted local time> : <description>"` line per
event, in input order. -/
theorem unencryptedRequestEmitsEventsInOrder (ops : BigOps) (cfg : Config)
    (now : Int) (fmtTime : Int → List Char) (D S : List Char)
    (es : List (List Char)) (hcfg : cfg.decryptionModulus = 0)
    (hD : '\n' ∉ D) (hS : '\n' ∉ S) (hes : ∀ e ∈ es, '\n' ∉ e) :
    connectionHandler ops cfg now fmtTime
        ('0' :: (D ++ '\n' :: (S ++ '\n' :: catLines es))) =
      { response := ['1'], osClosed := true,
        messages := es.map (fun e => eventMessage fmtTime D (parseEvent now e)) } := by
  simp [connectionHandler, hcfg, finishRequest, parseFrame, breakOn_append hD,
        breakOn_append hS, splitEvents_catLines es hes, useInfoMessages,
        List.map_map, Function.comp]

/-- Witness for C2: two events, the first with a hex timestamp. -/
theorem unencryptedRequestEmitsEventsInOrder_witness :
    connectionHandler ⟨fun _ => .ok 0, fun _ => []⟩ ⟨0, 0⟩ 7
        (fun t => if t = 0 then "T0".toList else "TX".toList)
        ('0' :: ("D".toList ++ '\n' ::
          ("S".toList ++ '\n' :: catLines ["10 a".toList, "b".toList]))) =
      { response := ['1'], osClosed := true,
        messages := ["10 a".toList, "b".toList].map (fun e =>
          eventMessage (fun t => if t = 0 then "T0".toList else "TX".toList)
            "D".toList (parseEvent 7 e)) } :=
  unencryptedRequestEmitsEventsInOrder _ _ _ _ _ _ _ rfl (by decide) (by decide)
    (by decide)

/-- C8: the empty request body is answered with exactly the single response
byte `'0'`, no half-close, and exactly the one message
`"Error : Invalid request"`. -/
theorem emptyRequestRejected (ops : BigOps) (cfg : Config) (now : Int)
    (fmtTime : Int → List Char) :
    connectionHandler ops cfg now fmtTime [] =
      { response := ['0'], osClosed := false,
        messages := ["Error : Invalid request\n".toList] } := rfl

/-- Witness for C8 at a concrete configuration. -/
theorem emptyRequestRejected_witness :
    connectionHandler ⟨fun _ => .ok 0, fun _ => []⟩ ⟨0, 0⟩ 0 (fun _ => []) [] =
      { response := ['0'], osClosed := false,
        messages := ["Error : Invalid request\n".toList] } :=
  emptyRequestRejected ⟨fun _ => .ok 0, fun _ => []⟩ ⟨0, 0⟩ 0 (fun _ => [])

/-- C10: an accepted unencrypted request whose body after the device-name
line contains no newline at all captures an empty stats string (the
remainder stays unconsumed) and emits the entire non-empty remainder as one
single event — a final event line without a terminating newline is emitted,
not dropped. -/
theorem unterminatedFinalEventEmitted (ops : BigOps) (cfg : Config) (now : Int)
    (fmtTime : Int → List Char) (D rest : List Char)
    (hcfg : cfg.decryptionModulus = 0) (hD : '\n' ∉ D) (hrest : '\n' ∉ rest)
    (hne : rest ≠ []) :
    connectionHandler ops cfg now fmtTime ('0' :: (D ++ '\n' :: rest)) =
      { response := ['1'], osClosed := true,
        messages := [eventMessage fmtTime D (parseEvent now rest)] } ∧
    parseFrame now (D ++ '\n' :: rest) = some (D, [], [parseEvent now rest]) := by
  have hpf : parseFrame now (D ++ '\n' :: rest) =
      some (D, [], [parseEvent now rest]) := by
    simp [parseFrame, breakOn_append hD, breakOn_of_not_mem hrest, splitEvents,
          splitEventsAux_no_newline rest [] hrest, hne]
  exact ⟨by simp [connectionHandler, hcfg, finishRequest, hpf, useInfoMessages],
    hpf⟩

/-- Witness for C10: body `"D\nev data"` — empty stats, one event. -/
theorem unterminatedFinalEventEmitted_witness :
    connectionHandler ⟨fun _ => .ok 0, fun _ => []⟩ ⟨0, 0⟩ 7 (fun _ => [])
        ('0' :: ("D".toList ++ '\n' :: "ev data".toList)) =
      { response := ['1'], osClosed := true,
        messages := [eventMessage (fun _ => []) "D".toList
          (parseEvent 7 "ev data".toList)] } ∧
    parseFrame 7 ("D".toList ++ '\n' :: "ev data".toList) =
      some ("D".toList, [], [parseEvent 7 "ev data".toList]) :=
  unterminatedFinalEventEmitted _ _ _ _ _ _ rfl (by decide) (by decide)
    (by decide)

/-- C3 counterexample: the event line `"hello world"` has no parseable
timestamp prefix, yet with current time 1 the code assigns it timestamp 0,
not the current time — the failed `>> hex` extraction overwrites `t` with 0
(C++11) and still strips the prefix. The handler therefore logs
`"Event : D : <fmt 0> : world"` instead of a line with the current time. -/
theorem timestampDefaultCounterexample :
    parseEvent 1 "hello world".toList = (0, "world".toList) ∧
    (connectionHandler ⟨fun _ => .ok 0, fun _ => []⟩ ⟨0, 0⟩ 1
        (fun t => if t = 0 then "T0".toList else "TX".toList)
        "0D\nS\nhello world".toList).messages =
      ["Event : D : T0 : world\n".toList] ∧ (0 : Int) ≠ 1 := by
  refine ⟨by decide, ?_, by decide⟩
  decide

/-- C3 (amended): if an event line begins with a hexadecimal timestamp field
followed by a space, that value is used; a line containing no space keeps the
current wall-clock time; but a line containing a space whose prefix does not
parse as a hexadecimal number gets timestamp 0 (the C++11 failed-extraction
value), with the prefix still stripped from the description. -/
theorem eventTimestampAssignment (now : Int) (line pre post : List Char) :
    (breakOn ' ' line = none → parseEvent now line = (now, line)) ∧
    (breakOn ' ' line = some (pre, post) →
      parseEvent now line = (readHexTimeT pre, post)) ∧
    (pre ≠ [] → (∀ c ∈ pre, (hexDigitVal c).isSome) →
      (hexVal pre : Int) ≤ 2 ^ 63 - 1 → readHexTimeT pre = hexVal pre) ∧
    ((pre.dropWhile isCppSpace).takeWhile isHexFieldChar = [] →
      readHexTimeT pre = 0) := by
  refine ⟨fun h => by simp [parseEvent, h], fun h => by simp [parseEvent, h],
    fun hne hdig hle => ?_,
    fun h => by simp [readHexTimeT, h, strtollHex, stripSign, stripHexMarker]⟩
  have hdrop : pre.dropWhile isCppSpace = pre := by
    cases pre with
    | nil => rfl
    | cons c cs =>
      have hsp : isCppSpace c = false :=
        hexDigit_not_space (hdig c (List.mem_cons_self c cs))
      simp [List.dropWhile, hsp]
  have htake : pre.takeWhile isHexFieldChar = pre :=
    List.takeWhile_eq_self_iff.mpr fun c hc => by
      simp [isHexFieldChar, hdig c hc]
  have hsign : stripSign pre = (false, pre) := by
    cases pre with
    | nil => rfl
    | cons c cs =>
      have hcd := hdig c (List.mem_cons_self c cs)
      have hm : c ≠ '-' := fun hx => absurd hcd (by subst hx; decide)
      have hp : c ≠ '+' := fun hx => absurd hcd (by subst hx; decide)
      simp [stripSign, hm, hp]
  have hmark : stripHexMarker pre = pre := by
    match pre with
    | [] => rfl
    | [_] => rfl
    | a :: b :: r =>
      have hbd := hdig b (List.mem_cons_of_mem a (List.mem_cons_self b r))
      have hx : b ≠ 'x' := fun hb => absurd hbd (by subst hb; decide)
      have hX : b ≠ 'X' := fun hb => absurd hbd (by subst hb; decide)
      simp [stripHexMarker, hx, hX]
  have hstr : strtollHex pre = some (false, hexVal pre) := by
    rw [strtollHex]
    simp only [hsign, hmark]
    have hemp : pre.isEmpty = false := by
      cases pre with
      | nil => exact absurd rfl hne
      | cons c cs => rfl
    have hall : pre.all (fun c => (hexDigitVal c).isSome) = true :=
      List.all_eq_true.mpr fun c hc => hdig c hc
    simp [hemp, hall]
  rw [readHexTimeT]
  simp only [hdrop, htake, hstr]
  have hgt : ¬((hexVal pre : Int) > longMax) := by
    rw [longMax]; omega
  simp [hgt]

/-- Witness for the amended C3: line `"1f desc"` gets timestamp `0x1f = 31`;
line `"nospace"` keeps the current time 5. -/
theorem eventTimestampAssignment_witness :
    parseEvent 5 "1f desc".toList = (31, "desc".toList) ∧
    parseEvent 5 "nospace".toList = (5, "nospace".toList) := by
  constructor
  · have h1 := (eventTimestampAssignment 5 "1f desc".toList "1f".toList
      "desc".toList).2.1 (by decide)
    have h2 := (eventTimestampAssignment 5 "1f desc".toList "1f".toList
      "desc".toList).2.2.1 (by decide) (by decide) (by decide)
    rw [h1, h2]
    decide
  · exact (eventTimestampAssignment 5 "nospace".toList [] []).1 (by decide)

/-- C4: a `StreamServerWrapper` preregistered with the queue `cs` and no
fallback server answers its first `cs.length` `accept` calls with the
enqueued channels exactly once each, in FIFO order, with no failure, and the
next call throws `NoStreamsLeftException`; with a fallback server
configured, a call finding the queue empty delegates to the fallback's own
`accept`. -/
theorem channelSourceFifoThenNoStreams {α β : Type}
    (cs : List α) (acceptNext : β → Except StreamError (α × β)) :
    StreamServerWrapper.acceptRun acceptNext (cs.length + 1)
        ⟨cs, none⟩ =
      (cs.map .ok ++ [.error .noStreamsLeft], ⟨[], none⟩) ∧
    ∀ b : β, StreamServerWrapper.accept acceptNext ⟨([] : List α), some b⟩ =
      (acceptNext b).map (fun p => (p.1, ⟨[], some p.2⟩)) := by
  constructor
  · induction cs with
    | nil => rfl
    | cons c cs ih =>
      have hstep : StreamServerWrapper.acceptRun acceptNext
          ((c :: cs).length + 1) ⟨c :: cs, none⟩ =
            (Except.ok c ::
              (StreamServerWrapper.acceptRun acceptNext (cs.length + 1)
                ⟨cs, none⟩).1,
             (StreamServerWrapper.acceptRun acceptNext (cs.length + 1)
                ⟨cs, none⟩).2) := rfl
      rw [hstep, ih]
      simp
  · intro b
    rfl

/-- Witness for C4 at a two-channel queue and an always-failing fallback. -/
theorem channelSourceFifoThenNoStreams_witness :
    StreamServerWrapper.acceptRun
        (fun _ : Unit => Except.error StreamError.noStreamsLeft)
        ([10, 20].length + 1) ⟨[10, 20], none⟩ =
      ([10, 20].map Except.ok ++ [Except.error StreamError.noStreamsLeft],
        ⟨[], none⟩) ∧
    StreamServerWrapper.accept
        (fun _ : Unit => Except.error StreamError.noStreamsLeft)
        ⟨([] : List Nat), some ()⟩ =
      (Except.error StreamError.noStreamsLeft : Except StreamError (Nat × Unit)).map
        (fun p => (p.1, (⟨[], some p.2⟩ : StreamServerWrapper Nat Unit))) := by
  have h := channelSourceFifoThenNoStreams [10, 20]
    (fun _ : Unit => Except.error StreamError.noStreamsLeft)
  exact ⟨h.1, h.2 ()⟩

/-- C9: the line-oriented text adapter converts every failure of the wrapped
byte reader/writer — `EOFException` (end of stream) and every other
`IOException` — into the soft end signal (`EOF` = -1 on read, -1 on write)
instead of propagating an error, so a closed connection and a broken one are
indistinguishable through it; and closing the adapter merely detaches the
underlying reader/writer (the handle becomes `none`; no operation is
performed on them). -/
theorem textAdapterSoftFailureAndDetach {ρ ω : Type}
    (readByte : ρ → ReadOutcome × ρ) (writeByte : ω → Nat → WriteOutcome × ω) :
    (∀ (r r' : ρ), readByte r = (.endOfStream, r') →
      (ReaderStreamBuf.getByteInternal readByte ⟨some r⟩).1 = -1) ∧
    (∀ (r r' : ρ) (m : List Char), readByte r = (.ioFailure m, r') →
      (ReaderStreamBuf.getByteInternal readByte ⟨some r⟩).1 = -1) ∧
    (∀ (w w' : ω) (b : Nat) (m : List Char), writeByte w b = (.ioFailure m, w') →
      (WriterStreamBuf.putByteInternal writeByte ⟨some w⟩ b).1 = -1) ∧
    (∀ sb : ReaderStreamBuf ρ, ReaderStreamBuf.close sb = ⟨none⟩) ∧
    (∀ sb : WriterStreamBuf ω, WriterStreamBuf.close sb = ⟨none⟩) := by
  refine ⟨fun r r' h => ?_, fun r r' m h => ?_, fun w w' b m h => ?_,
    fun _ => rfl, fun _ => rfl⟩
  · simp [ReaderStreamBuf.getByteInternal, h]
  · simp [ReaderStreamBuf.getByteInternal, h]
  · simp [WriterStreamBuf.putByteInternal, h]

/-- Witness for C9 at concrete one-state readers/writers whose operations
fail with end-of-stream and with a transport error. -/
theorem textAdapterSoftFailureAndDetach_witness :
    (ReaderStreamBuf.getByteInternal
      (fun _ : Unit => (ReadOutcome.endOfStream, ())) ⟨some ()⟩).1 = -1 ∧
    (ReaderStreamBuf.getByteInternal
      (fun _ : Unit => (ReadOutcome.ioFailure "broken".toList, ()))
      ⟨some ()⟩).1 = -1 ∧
    (WriterStreamBuf.putByteInternal
      (fun (_ : Unit) (_ : Nat) => (WriteOutcome.ioFailure "broken".toList, ()))
      ⟨some ()⟩ 65).1 = -1 :=
  ⟨(textAdapterSoftFailureAndDetach (fun _ : Unit => (ReadOutcome.endOfStream, ()))
      (fun (_ : Unit) (_ : Nat) => (WriteOutcome.ok, ()))).1 () () rfl,
   (textAdapterSoftFailureAndDetach
      (fun _ : Unit => (ReadOutcome.ioFailure "broken".toList, ()))
      (fun (_ : Unit) (_ : Nat) => (WriteOutcome.ok, ()))).2.1 () ()
     "broken".toList rfl,
   (textAdapterSoftFailureAndDetach (fun _ : Unit => (ReadOutcome.endOfStream, ()))
      (fun (_ : Unit) (_ : Nat) =>
        (WriteOutcome.ioFailure "broken".toList, ()))).2.2.1 () () 65
     "broken".toList rfl⟩

/-- C5: parsing of device name, stats and events is only reached when every
encrypted block has passed checksum verification — a failing decryption
aborts the whole request as a rejection — and every rejected request (response
byte `'0'`) carries exactly one `"Error : <reason>"` message and no
`"Event : ..."` line. -/
theorem rejectedRequestSingleErrorNoEvents (ops : BigOps) (cfg : Config)
    (now : Int) (fmtTime : Int → List Char) :
    (∀ msg : List Char,
      (connectionHandler ops cfg now fmtTime msg).response = ['0'] →
      ∃ reason, (connectionHandler ops cfg now fmtTime msg).messages =
          ["Error : ".toList ++ reason ++ ['\n']] ∧
        ∀ t, "Error : ".toList ++ reason ++ ['\n'] ≠ "Event : ".toList ++ t) ∧
    (∀ (body e : List Char), decryptBlocks ops cfg body = .error e →
      connectionHandler ops cfg now fmtTime ('1' :: body) =
        rejectResult ("Error : ".toList ++ e ++ ['\n'])) := by
  have hfin : ∀ body : List Char,
      finishRequest now fmtTime body =
          rejectResult "Error : can't find device name\n".toList ∨
        (finishRequest now fmtTime body).response = ['1'] := by
    intro body
    cases hpf : parseFrame now body with
    | none => exact Or.inl (by simp [finishRequest, hpf])
    | some x =>
      obtain ⟨d, s, evs⟩ := x
      exact Or.inr (by simp [finishRequest, hpf])
  constructor
  · intro msg h
    cases msg with
    | nil => exact ⟨"Invalid request".toList, rfl, fun t => errTag_ne_event _ t⟩
    | cons tag body =>
      by_cases h0 : tag = '0'
      · subst h0
        by_cases hm : cfg.decryptionModulus = 0
        · have hcall : connectionHandler ops cfg now fmtTime ('0' :: body) =
              finishRequest now fmtTime body := by
            simp [connectionHandler, hm]
          rcases hfin body with hrej | hacc
          · rw [hcall, hrej]
            exact ⟨"can't find device name".toList, rfl,
              fun t => errTag_ne_event _ t⟩
          · rw [hcall] at h
            rw [hacc] at h
            exact absurd h (by decide)
        · have hcall : connectionHandler ops cfg now fmtTime ('0' :: body) =
              rejectResult "Error : unencrypted message attempted\n".toList := by
            simp [connectionHandler, hm]
          rw [hcall]
          exact ⟨"unencrypted message attempted".toList, rfl,
            fun t => errTag_ne_event _ t⟩
      · by_cases h1 : tag = '1'
        · subst h1
          cases hd : decryptBlocks ops cfg body with
          | error e =>
            have hcall : connectionHandler ops cfg now fmtTime ('1' :: body) =
                rejectResult ("Error : ".toList ++ e ++ ['\n']) := by
              simp [connectionHandler, hd, (by decide : ('1' : Char) ≠ '0')]
            rw [hcall]
            exact ⟨e, rfl, fun t => errTag_ne_event _ t⟩
          | ok plain =>
            have hcall : connectionHandler ops cfg now fmtTime ('1' :: body) =
                finishRequest now fmtTime plain := by
              simp [connectionHandler, hd, (by decide : ('1' : Char) ≠ '0')]
            rcases hfin plain with hrej | hacc
            · rw [hcall, hrej]
              exact ⟨"can't find device name".toList, rfl,
                fun t => errTag_ne_event _ t⟩
            · rw [hcall] at h
              rw [hacc] at h
              exact absurd h (by decide)
        · have hcall : connectionHandler ops cfg now fmtTime (tag :: body) =
              rejectResult "Error : Invalid encryption type\n".toList := by
            simp [connectionHandler, h0, h1]
          rw [hcall]
          exact ⟨"Invalid encryption type".toList, rfl,
            fun t => errTag_ne_event _ t⟩
  · intro body e hd
    simp [connectionHandler, hd, (by decide : ('1' : Char) ≠ '0')]

/-- Witness for C5 at the concrete rejected (empty) request. -/
theorem rejectedRequestSingleErrorNoEvents_witness :
    ∃ reason,
      (connectionHandler ⟨fun _ => .ok 0, fun _ => []⟩ ⟨0, 0⟩ 0 (fun _ => [])
          []).messages = ["Error : ".toList ++ reason ++ ['\n']] ∧
      ∀ t, "Error : ".toList ++ reason ++ ['\n'] ≠ "Event : ".toList ++ t :=
  (rejectedRequestSingleErrorNoEvents ⟨fun _ => .ok 0, fun _ => []⟩ ⟨0, 0⟩ 0
    (fun _ => [])).1 [] (by decide)

/-- C6: a tag-`'0'` request while a decryption key is configured is rejected
with `'0'` and `"Error : unencrypted message attempted"` whatever the body;
a request whose first character is neither `'0'` nor `'1'` is rejected with
`'0'` and `"Error : Invalid encryption type"`. -/
theorem tagValidation (ops : BigOps) (cfg : Config) (now : Int)
    (fmtTime : Int → List Char) :
    (∀ body : List Char, cfg.decryptionModulus ≠ 0 →
      connectionHandler ops cfg now fmtTime ('0' :: body) =
        rejectResult "Error : unencrypted message attempted\n".toList) ∧
    (∀ (c : Char) (body : List Char), c ≠ '0' → c ≠ '1' →
      connectionHandler ops cfg now fmtTime (c :: body) =
        rejectResult "Error : Invalid encryption type\n".toList) := by
  constructor
  · intro body hm
    simp [connectionHandler, hm]
  · intro c body h0 h1
    simp [connectionHandler, h0, h1]

/-- Witness for C6: a keyed configuration rejecting tag `'0'`, and tag `'2'`
rejected as an invalid encryption type. -/
theorem tagValidation_witness :
    connectionHandler ⟨fun _ => .ok 0, fun _ => []⟩ ⟨77, 3⟩ 0 (fun _ => [])
        ('0' :: "AnyBody\nx".toList) =
      rejectResult "Error : unencrypted message attempted\n".toList ∧
    connectionHandler ⟨fun _ => .ok 0, fun _ => []⟩ ⟨0, 0⟩ 0 (fun _ => [])
        ('2' :: "AnyBody\nx".toList) =
      rejectResult "Error : Invalid encryption type\n".toList :=
  ⟨(tagValidation _ _ _ _).1 _ (by decide),
   (tagValidation _ _ _ _).2 '2' _ (by decide) (by decide)⟩

/-- C7: a request whose plain body (tag `'0'`, no key) or successfully
decrypted body (tag `'1'`, all blocks verified) contains no newline at all
is rejected with `'0'` and `"Error : can't find device name"`. -/
theorem missingDeviceNameRejected (ops : BigOps) (cfg : Config) (now : Int)
    (fmtTime : Int → List Char) :
    (∀ body : List Char, cfg.decryptionModulus = 0 → '\n' ∉ body →
      connectionHandler ops cfg now fmtTime ('0' :: body) =
        rejectResult "Error : can't find device name\n".toList) ∧
    (∀ (body plain : List Char), decryptBlocks ops cfg body = .ok plain →
      '\n' ∉ plain →
      connectionHandler ops cfg now fmtTime ('1' :: body) =
        rejectResult "Error : can't find device name\n".toList) := by
  constructor
  · intro body hm hnl
    simp [connectionHandler, hm, finishRequest, parseFrame,
          breakOn_of_not_mem hnl]
  · intro body plain hd hnl
    simp [connectionHandler, hd, (by decide : ('1' : Char) ≠ '0'),
          finishRequest, parseFrame, breakOn_of_not_mem hnl]

/-- Witness for C7: plain body `"nodevice"`, and the empty encrypted body
whose decryption trivially succeeds with an empty plaintext. -/
theorem missingDeviceNameRejected_witness :
    connectionHandler ⟨fun _ => .ok 0, fun _ => []⟩ ⟨0, 0⟩ 0 (fun _ => [])
        ('0' :: "nodevice".toList) =
      rejectResult "Error : can't find device name\n".toList ∧
    connectionHandler ⟨fun _ => .ok 0, fun _ => []⟩ ⟨0, 0⟩ 0 (fun _ => [])
        ('1' :: []) =
      rejectResult "Error : can't find device name\n".toList :=
  ⟨(missingDeviceNameRejected _ _ _ _).1 "nodevice".toList rfl (by decide),
   (missingDeviceNameRejected _ _ _ _).2 [] [] rfl (by decide)⟩

end PeopleCounter
